import Mathlib

set_option maxRecDepth 10000

/-- Model of a JavaScript runtime value as produced by JSON.parse, plus
the `undefined` value that property access on absent keys yields. -/
inductive JsVal where
  | null : JsVal
  | undefined : JsVal
  | bool : Bool → JsVal
  | num : Rat → JsVal
  | str : String → JsVal
  | arr : List JsVal → JsVal
  | obj : List (String × JsVal) → JsVal

/-- JavaScript truthiness of a value. -/
def truthy : JsVal → Bool
  | .null => false
  | .undefined => false
  | .bool b => b
  | .num q => q != 0
  | .str s => s != ""
  | .arr _ => true
  | .obj _ => true

/-- The left brace character. -/
def lbraceChar : Char := Char.ofNat 123

/-- The right brace character. -/
def rbraceChar : Char := Char.ofNat 125

/-- The double-quote character. -/
def dquoteChar : Char := Char.ofNat 34

/-- The backslash character. -/
def bslashChar : Char := Char.ofNat 92

/-- JSON whitespace characters (as accepted by JSON.parse). -/
def isJsonWs (c : Char) : Bool :=
  c = ' ' || c = '\t' || c = '\n' || c = '\r'

/-- Skip leading JSON whitespace. -/
def skipWs : List Char → List Char
  | [] => []
  | c :: rest => if isJsonWs c then skipWs rest else c :: rest

/-- Value of a hexadecimal digit, if it is one. -/
def hexVal (c : Char) : Option Nat :=
  if '0' ≤ c && c ≤ '9' then some (c.toNat - 48)
  else if 'a' ≤ c && c ≤ 'f' then some (c.toNat - 97 + 10)
  else if 'A' ≤ c && c ≤ 'F' then some (c.toNat - 65 + 10)
  else none

/-- Scan the body of a JSON string literal (after the opening quote),
handling the JSON escape sequences; returns the decoded string and the
rest of the input after the closing quote.  Fuelled by input length. -/
def parseStrAux : Nat → List Char → List Char → Option (String × List Char)
  | 0, _, _ => none
  | Nat.succ _, [], _ => none
  | Nat.succ f, c :: rest, acc =>
    if c = dquoteChar then some (String.mk acc.reverse, rest)
    else if c = bslashChar then
      match rest with
      | [] => none
      | e :: r2 =>
        if e = dquoteChar then parseStrAux f r2 (dquoteChar :: acc)
        else if e = bslashChar then parseStrAux f r2 (bslashChar :: acc)
        else if e = '/' then parseStrAux f r2 ('/' :: acc)
        else if e = 'b' then parseStrAux f r2 (Char.ofNat 8 :: acc)
        else if e = 'f' then parseStrAux f r2 (Char.ofNat 12 :: acc)
        else if e = 'n' then parseStrAux f r2 ('\n' :: acc)
        else if e = 'r' then parseStrAux f r2 ('\r' :: acc)
        else if e = 't' then parseStrAux f r2 ('\t' :: acc)
        else if e = 'u' then
          match r2 with
          | h1 :: h2 :: h3 :: h4 :: r3 =>
            match hexVal h1, hexVal h2, hexVal h3, hexVal h4 with
            | some a, some b, some c3, some d =>
              parseStrAux f r3 (Char.ofNat (((a * 16 + b) * 16 + c3) * 16 + d) :: acc)
            | _, _, _, _ => none
          | _ => none
        else none
    else if c.toNat < 32 then none
    else parseStrAux f rest (c :: acc)

/-- Digits to a natural number. -/
def digitsToNat (ds : List Char) : Nat :=
  ds.foldl (fun acc c => acc * 10 + (c.toNat - 48)) 0

/-- Parse a JSON number literal, returned as an exact rational. -/
def parseNum (cs : List Char) : Option (Rat × List Char) :=
  let (neg, cs1) := match cs with
    | '-' :: rest => (true, rest)
    | _ => (false, cs)
  let intDigits := cs1.takeWhile Char.isDigit
  let cs2 := cs1.dropWhile Char.isDigit
  if intDigits = [] then none
  else if intDigits.length > 1 && intDigits.headD '0' = '0' then none
  else
    let intPart : Rat := (digitsToNat intDigits : Nat)
    let contFrac : Option (Rat × List Char) :=
      match cs2 with
      | '.' :: r =>
        let fd := r.takeWhile Char.isDigit
        let r2 := r.dropWhile Char.isDigit
        if fd = [] then none
        else some (intPart + (digitsToNat fd : Rat) / ((10 : Rat) ^ fd.length), r2)
      | _ => some (intPart, cs2)
    match contFrac with
    | none => none
    | some (mant, cs3) =>
      let contExp : Option (Rat × List Char) :=
        match cs3 with
        | 'e' :: r => some (0, r)
        | 'E' :: r => some (0, r)
        | _ => none
      match contExp with
      | none => some (if neg then -mant else mant, cs3)
      | some (_, r) =>
        let (eneg, r1) := match r with
          | '-' :: rr => (true, rr)
          | '+' :: rr => (false, rr)
          | _ => (false, r)
        let ed := r1.takeWhile Char.isDigit
        let r2 := r1.dropWhile Char.isDigit
        if ed = [] then none
        else
          let scale : Rat := (10 : Rat) ^ digitsToNat ed
          let v := if eneg then mant / scale else mant * scale
          some (if neg then -v else v, r2)

/-- Insert or overwrite a key in an object's field list, keeping the
original position of an existing key (JavaScript property assignment). -/
def objSet : List (String × JsVal) → String → JsVal → List (String × JsVal)
  | [], k, v => [(k, v)]
  | (k0, v0) :: rest, k, v =>
    if k0 = k then (k0, v) :: rest else (k0, v0) :: objSet rest k v

/-- The recursive-descent parser's mode: a value, the inside of an
object right after the opening brace (closing brace or first member), a
required member, the object loop after a member (comma or closing
brace), the inside of an array right after the opening bracket, or the
array loop after an element. -/
inductive PMode where
  | val : PMode
  | objStart : List (String × JsVal) → PMode
  | objPair : List (String × JsVal) → PMode
  | objLoop : List (String × JsVal) → PMode
  | arrStart : List JsVal → PMode
  | arrLoop : List JsVal → PMode

/-- One fueled parsing routine for all modes of the JSON grammar.  Fuel
bounds the recursion depth; `jsonParse` supplies ample fuel (every step
either consumes input or moves to a member of the remaining input). -/
def parseStep : Nat → PMode → List Char → Option (JsVal × List Char)
  | 0, _, _ => none
  | Nat.succ f, .val, cs0 =>
    (match skipWs cs0 with
    | [] => none
    | c :: rest =>
      if c = lbraceChar then parseStep f (.objStart []) (skipWs rest)
      else if c = '[' then parseStep f (.arrStart []) (skipWs rest)
      else if c = dquoteChar then
        match parseStrAux (rest.length + 1) rest [] with
        | some (s, r) => some (.str s, r)
        | none => none
      else if c = 't' then
        match rest with
        | 'r' :: 'u' :: 'e' :: r => some (.bool true, r)
        | _ => none
      else if c = 'f' then
        match rest with
        | 'a' :: 'l' :: 's' :: 'e' :: r => some (.bool false, r)
        | _ => none
      else if c = 'n' then
        match rest with
        | 'u' :: 'l' :: 'l' :: r => some (.null, r)
        | _ => none
      else
        match parseNum (c :: rest) with
        | some (q, r) => some (.num q, r)
        | none => none)
  | Nat.succ f, .objStart acc, cs =>
    (match cs with
    | [] => none
    | c :: rest =>
      if c = rbraceChar then some (.obj acc, rest)
      else parseStep f (.objPair acc) (c :: rest))
  | Nat.succ f, .objPair acc, cs =>
    (match cs with
    | c :: rest =>
      if c = dquoteChar then
        match parseStrAux (rest.length + 1) rest [] with
        | some (k, r1) =>
          match skipWs r1 with
          | ':' :: r2 =>
            match parseStep f .val r2 with
            | some (v, r3) => parseStep f (.objLoop (objSet acc k v)) (skipWs r3)
            | none => none
          | _ => none
        | none => none
      else none
    | [] => none)
  | Nat.succ f, .objLoop acc, cs =>
    (match cs with
    | c :: rest =>
      if c = rbraceChar then some (.obj acc, rest)
      else if c = ',' then parseStep f (.objPair acc) (skipWs rest)
      else none
    | [] => none)
  | Nat.succ f, .arrStart acc, cs =>
    (match cs with
    | c :: rest =>
      if c = ']' then some (.arr acc.reverse, rest)
      else
        match parseStep f .val (c :: rest) with
        | some (v, r1) => parseStep f (.arrLoop (v :: acc)) (skipWs r1)
        | none => none
    | [] => none)
  | Nat.succ f, .arrLoop acc, cs =>
    (match cs with
    | c :: rest =>
      if c = ']' then some (.arr acc.reverse, rest)
      else if c = ',' then
        match parseStep f .val (skipWs rest) with
        | some (v, r1) => parseStep f (.arrLoop (v :: acc)) (skipWs r1)
        | none => none
      else none
    | [] => none)

/-- Model of `JSON.parse`: parse the whole string as a single JSON value,
allowing surrounding whitespace; `none` models a thrown SyntaxError. -/
def jsonParse (s : String) : Option JsVal :=
  let cs := s.data
  match parseStep (2 * cs.length + 2) .val cs with
  | some (v, rest) => if skipWs rest = [] then some v else none
  | none => none

/-- The whitespace set trimmed by `String.prototype.trim`: ASCII
whitespace, NBSP, ZWNBSP and the line/paragraph separators (the rarer
Unicode space characters are omitted). -/
def isJsWs (c : Char) : Bool :=
  c = ' ' || c = '\t' || c = '\n' || c = '\r' ||
  c = Char.ofNat 11 || c = Char.ofNat 12 || c = Char.ofNat 160 ||
  c = Char.ofNat 65279 || c = Char.ofNat 8232 || c = Char.ofNat 8233

/-- Model of `String.prototype.trim`. -/
def jsTrim (s : String) : String :=
  String.mk (((s.data.dropWhile isJsWs).reverse.dropWhile isJsWs).reverse)

/-- Field of an object field list, `undefined` when absent.  Field lists built
by the parser and by `objSet` have no duplicate keys. -/
def getFieldD : List (String × JsVal) → String → JsVal
  | [], _ => .undefined
  | (k0, v) :: rest, k => if k0 = k then v else getFieldD rest k

/-- JavaScript property read `v[k]`: throws a TypeError on `null` and
`undefined`, yields `undefined` on other non-objects (none of the
property names read by this code exist on primitives or arrays). -/
def getProp (v : JsVal) (k : String) : Except Unit JsVal :=
  match v with
  | .null => .error ()
  | .undefined => .error ()
  | .obj fields => .ok (getFieldD fields k)
  | _ => .ok .undefined

/-- Own enumerable fields contributed by object spread `\x7b...v\x7d`:
objects give their fields, strings and arrays give index-keyed entries,
other primitives give nothing. -/
def jsSpreadFields : JsVal → List (String × JsVal)
  | .obj fields => fields
  | .str s => (List.range s.length).zip (s.data.map (fun c => .str (String.mk [c])))
      |>.map (fun p => (toString p.1, p.2))
  | .arr xs => ((List.range xs.length).zip xs).map (fun p => (toString p.1, p.2))
  | _ => []

/-- `Array.isArray(states) ? states : []` from the node normalizer. -/
def normStates : JsVal → JsVal
  | .arr xs => .arr xs
  | _ => .arr []

/-- One step of node normalization:
`(node) => (\x7b...node, states: Array.isArray(node.states) ? node.states : [],
probabilities: node.probabilities || \x7b\x7d\x7d)`. -/
def normNode (node : JsVal) : Except Unit JsVal :=
  match getProp node ("states") with
  | .error e => .error e
  | .ok st =>
    match getProp node ("probabilities") with
    | .error e => .error e
    | .ok pr =>
      .ok (.obj (objSet (objSet (jsSpreadFields node) "states" (normStates st))
        "probabilities" (if truthy pr then pr else .obj [])))

/-- One step of edge normalization:
`(edge) => (\x7b...edge, probability: edge.probability || null\x7d)`. -/
def normEdge (edge : JsVal) : Except Unit JsVal :=
  match getProp edge ("probability") with
  | .error e => .error e
  | .ok pr =>
    .ok (.obj (objSet (jsSpreadFields edge) "probability"
      (if truthy pr then pr else .null)))

/-- JavaScript `xs.map(f)`: a TypeError unless the receiver is an array. -/
def jsMap (v : JsVal) (f : JsVal → Except Unit JsVal) : Except Unit JsVal :=
  match v with
  | .arr xs =>
    match xs.mapM f with
    | .ok ys => .ok (.arr ys)
    | .error e => .error e
  | _ => .error ()

/-- Property assignment `v[k] = w`: updates object fields, silently does
nothing on non-objects (non-strict mode). -/
def jsObjSet (v : JsVal) (k : String) (w : JsVal) : JsVal :=
  match v with
  | .obj fields => .obj (objSet fields k w)
  | other => other

/-- The truthy-update branch of `validateAndNormalizeLLMResponse`:
map the node normalizer over `updated_cbn.nodes`, store the result, map
the edge normalizer over `updated_cbn.edges`, store the result. -/
def normUpdated (ucbn : JsVal) : Except Unit JsVal :=
  match getProp ucbn ("nodes") with
  | .error e => .error e
  | .ok ns =>
    match jsMap ns normNode with
    | .error e => .error e
    | .ok ns2 =>
      let ucbn1 := jsObjSet ucbn ("nodes") ns2
      match getProp ucbn1 ("edges") with
      | .error e => .error e
      | .ok es =>
        match jsMap es normEdge with
        | .error e => .error e
        | .ok es2 => .ok (jsObjSet ucbn1 ("edges") es2)

/-- The wrapper record both pipeline entry points resolve with
(`LLMResponse` in the source).  All four fields carry runtime values,
since the defaulting uses JavaScript truthiness, not the declared types. -/
structure IngestResult where
  updated_cbn : JsVal
  tentative_suggestions : JsVal
  reflection_prompts : JsVal
  subclaims : JsVal

/-- Fixed error message of the validator's recovery path. -/
def invalidFormatMsg : String := "Error: Invalid response format"

/-- Fixed retry prompt of the validator's recovery path. -/
def retryPromptMsg : String := "Please try again"

/-- The fallback result built in the validator's catch block. -/
def errorFallbackResult (fallbackCBN : JsVal) : IngestResult :=
  ⟨fallbackCBN, .arr [.str invalidFormatMsg], .arr [.str retryPromptMsg], .arr []⟩

/-- The try-block of `validateAndNormalizeLLMResponse` for a string
payload: parse, normalize the updated network if truthy, default the
remaining wrapper fields; `.error` models an exception reaching the
catch. -/
def vanBody (s : String) (fallbackCBN : JsVal) : Except Unit IngestResult :=
  match jsonParse s with
  | none => .error ()
  | some response =>
    match getProp response ("updated_cbn") with
    | .error e => .error e
    | .ok ucbn =>
      match (if truthy ucbn then normUpdated ucbn else .ok ucbn) with
      | .error e => .error e
      | .ok ucbnOut =>
        match getProp response ("tentative_suggestions"),
            getProp response ("reflection_prompts"),
            getProp response ("subclaims") with
        | .ok ts, .ok rp, .ok sc =>
          .ok ⟨if truthy ucbnOut then ucbnOut else fallbackCBN,
               if truthy ts then ts else .arr [],
               if truthy rp then rp else .arr [],
               if truthy sc then sc else .arr []⟩
        | _, _, _ => .error ()

/-- `validateAndNormalizeLLMResponse` (src/lib/llm.ts, lines 144-190) for
a string payload: total, the catch converts every internal exception to
the fixed fallback result. -/
def validateAndNormalizeLLMResponse (s : String) (fallbackCBN : JsVal) :
    IngestResult :=
  match vanBody s fallbackCBN with
  | .ok r => r
  | .error _ => errorFallbackResult fallbackCBN

/-- Whether `needle` occurs at the head of `hay`. -/
def matchesAt : List Char → List Char → Bool
  | [], _ => true
  | _ :: _, [] => false
  | a :: as, b :: bs => a = b && matchesAt as bs

/-- First index of `needle` in `hay` (model of `String.prototype.indexOf`
restricted to successful searches). -/
def findSubIdx (needle : List Char) : List Char → Option Nat
  | [] => if matchesAt needle [] then some 0 else none
  | c :: rest =>
    if matchesAt needle (c :: rest) then some 0
    else (findSubIdx needle rest).map (· + 1)

/-- Model of `content.match(/\x7b[\s\S]*\x7d/)`: the regex matches from
the first left brace to the last right brace when the latter comes after
the former (the quantifier is greedy and `[\s\S]` matches anything),
and fails otherwise. -/
def braceMatch (content : String) : Option String :=
  let cs := content.data
  match cs.findIdx? (fun c => c = lbraceChar) with
  | none => none
  | some i =>
    match (cs.reverse.findIdx? (fun c => c = rbraceChar)).map
        (fun k => cs.length - 1 - k) with
    | none => none
    | some j =>
      if i < j then some (String.mk ((cs.drop i).take (j - i + 1))) else none

/-- Array spread `[x, ...v]`: arrays spread to their elements, strings to
their characters, anything else truthy is not iterable (TypeError). -/
def jsIterList : JsVal → Except Unit (List JsVal)
  | .arr xs => .ok xs
  | .str s => .ok (s.data.map (fun c => .str (String.mk [c])))
  | _ => .error ()

/-- Fixed explanation of the `processUserInput` recovery path. -/
def puiFallbackMsg : String :=
  "Water Quality has a direct positive influence on Seagrass Biomass. Good water quality, characterized by appropriate light penetration and nutrient levels, is essential for seagrass growth and survival. When water quality is poor, it can limit photosynthesis and reduce seagrass biomass production."

/-- First fixed reflection prompt of the `processUserInput` recovery path. -/
def puiFallbackPromptA : String :=
  "How might improving water quality affect seagrass recovery rates?"

/-- Second fixed reflection prompt of the `processUserInput` recovery path. -/
def puiFallbackPromptB : String :=
  "What other environmental factors interact with water quality?"

/-- The fallback result built in the `processUserInput` catch block. -/
def puiFallbackResult (cbn : JsVal) : IngestResult :=
  ⟨cbn, .arr [.str puiFallbackMsg],
    .arr [.str puiFallbackPromptA, .str puiFallbackPromptB], .arr []⟩

/-- The content-processing part of `processUserInput` (src/lib/llm.ts,
lines 103-126): locate a brace-delimited substring, treat the text before
it as the explanation, parse it, and assemble the response; `.error`
models an exception reaching the catch. -/
def puiBody (cbn : JsVal) (content : String) : Except Unit IngestResult :=
  match braceMatch content with
  | none => .error ()
  | some jsonStr =>
    let expl := jsTrim (String.mk (content.data.take
      ((findSubIdx jsonStr.data content.data).getD 0)))
    match jsonParse jsonStr with
    | none => .error ()
    | some resp =>
      match getProp resp ("updated_cbn") with
      | .error e => .error e
      | .ok ucbn =>
        match getProp resp ("tentative_suggestions") with
        | .error e => .error e
        | .ok ts =>
          match jsIterList (if truthy ts then ts else .arr []) with
          | .error e => .error e
          | .ok tsList =>
            match getProp resp ("reflection_prompts"),
                getProp resp ("subclaims") with
            | .ok rp, .ok sc =>
              .ok ⟨if truthy ucbn then ucbn else cbn,
                   .arr (.str expl :: tsList),
                   if truthy rp then rp else .arr [],
                   if truthy sc then sc else .arr []⟩
            | _, _ => .error ()

/-- `processUserInput` (src/lib/llm.ts, lines 33-142) after the agent
reply `content` has arrived; the transport is abstracted away, a
transport failure enters the same catch as a content failure.  Total:
the catch converts every exception into the fixed recovery result. -/
def processUserInput (cbn : JsVal) (content : String) : IngestResult :=
  match puiBody cbn content with
  | .ok r => r
  | .error _ => puiFallbackResult cbn

/-- Edge probability (src/types/cbn.ts): a scalar or a conditional
probability table from parent state to child-state distribution. -/
inductive EdgeProb where
  | scalar : Rat → EdgeProb
  | table : List (String × List (String × Rat)) → EdgeProb
deriving DecidableEq

/-- `Node` (src/types/cbn.ts). -/
structure Node where
  id : String
  name : String
  states : List String
  category : String
  probabilities : Option (List (String × Rat))
  description : Option String
deriving DecidableEq

/-- `Edge` (src/types/cbn.ts); `from`/`to` are Lean keywords, rendered
`fromId`/`toId`. -/
structure Edge where
  id : String
  fromId : String
  toId : String
  probability : Option EdgeProb
  description : Option String
deriving DecidableEq

/-- `CPD` (src/types/cbn.ts). -/
structure CPD where
  parents : List String
  probabilities : List (String × List Rat)
deriving DecidableEq

/-- `CBN` (src/types/cbn.ts). -/
structure CBN where
  nodes : List Node
  edges : List Edge
  cpds : List (String × CPD)
deriving DecidableEq

/-- A node with neither probabilities nor description, as in the seed
network literal. -/
def mkNode (id name : String) (states : List String) (category : String) :
    Node :=
  ⟨id, name, states, category, none, none⟩

/-- An edge with no probability, as in the seed network literal. -/
def mkEdge (id fromId toId : String) : Edge :=
  ⟨id, fromId, toId, none, none⟩

/-- `initialCBN` (src/App.vue, lines 21-46): the fixed seed network. -/
def initialCBN : CBN :=
  { nodes :=
      [ mkNode ("1") "Local Support" ["Weak", "Strong"] "Social",
        mkNode ("2") "Restoration Investment" ["Limited", "Adequate"] "Management",
        mkNode ("3") "Water Quality" ["Poor", "Good"] "Environmental",
        mkNode ("4") "Seagrass Biomass" ["Low", "Medium", "High"] "Environmental",
        mkNode ("5") "Carbon Sequestration" ["Low", "High"] "Environmental",
        mkNode ("6") "Light Availability" ["Limited", "Optimal"] "Environmental",
        mkNode ("7") "Sediment Conditions" ["Poor", "Good"] "Environmental",
        mkNode ("8") "Carbon Credits" ["Unavailable", "Available"] "Economic",
        mkNode ("9") "Economic Benefits" ["Low", "Medium", "High"] "Economic" ],
    edges :=
      [ mkEdge ("e1") "1" "2", mkEdge ("e2") "2" "3", mkEdge ("e3") "3" "4",
        mkEdge ("e4") "4" "5", mkEdge ("e5") "3" "6", mkEdge ("e6") "6" "4",
        mkEdge ("e7") "7" "4", mkEdge ("e8") "5" "8", mkEdge ("e9") "8" "9",
        mkEdge ("e10") "9" "1" ],
    cpds := [] }

/-- Per-node step of `compareNetworks` (src/App.vue, lines 122-129): the
message pushed for one candidate node, if any.  The JSON.stringify
comparison of two typed node records (fixed field set and order)
coincides with structural equality. -/
def nodeMsg (oldC : CBN) (n : Node) : Option String :=
  match oldC.nodes.find? (fun o => o.id = n.id) with
  | none => some ("Added new node: " ++ n.name)
  | some o => if o = n then none else some ("Updated node: " ++ n.name)

/-- Per-edge step of `compareNetworks` (src/App.vue, lines 132-141): the
message pushed for one candidate edge, if any.  Endpoint names are
resolved in the candidate network; a missing endpoint renders as the
string `undefined`, as the template literal does. -/
def edgeMsg (oldC newC : CBN) (e : Edge) : Option String :=
  match oldC.edges.find? (fun o => o.id = e.id) with
  | none =>
    let fromName := ((newC.nodes.find? (fun n => n.id = e.fromId)).map
      (fun n => n.name)).getD ("undefined")
    let toName := ((newC.nodes.find? (fun n => n.id = e.toId)).map
      (fun n => n.name)).getD ("undefined")
    some ("Added new relationship: " ++ fromName ++ " → " ++ toName)
  | some o => if o = e then none else some ("Updated relationship probabilities")

/-- `changes.push(msg)` when a message is produced. -/
def pushMsg (acc : List String) (m : Option String) : List String :=
  match m with
  | none => acc
  | some s => acc ++ [s]

/-- `compareNetworks` (src/App.vue, lines 118-144): two forEach passes
pushing human-readable change messages. -/
def compareNetworks (oldC newC : CBN) : List String :=
  let changes := newC.nodes.foldl (fun acc n => pushMsg acc (nodeMsg oldC n)) []
  newC.edges.foldl (fun acc e => pushMsg acc (edgeMsg oldC newC e)) changes

/-- A conversation entry (text and sender) as pushed by App.vue. -/
structure ChatMsg where
  text : String
  sender : String
deriving DecidableEq

/-- The typed wrapper `processUserInput` resolves with, as declared in
src/lib/llm.ts. -/
structure LLMResponse where
  updated_cbn : CBN
  tentative_suggestions : List String
  reflection_prompts : List String
  subclaims : List String
deriving DecidableEq

/-- The orchestrator's state: the `cbn` ref and the `messages` ref. -/
structure AppState where
  cbn : CBN
  messages : List ChatMsg
deriving DecidableEq

/-- `handleSendMessage` (src/App.vue, lines 62-115) on the path where the
ingestion pipeline resolves with `resp`: push the user text, push the
loading message, remove it again once the response arrives (it is the
last entry at that point), then narrate suggestions and prompts.  The
`cbn` ref is never assigned on any path of the source function. -/
def handleSendMessage (st : AppState) (message : String)
    (resp : LLMResponse) : AppState :=
  let m1 := st.messages ++ [⟨message, "user"⟩]
  let m2 := m1 ++ [⟨"Processing...", "bot"⟩]
  let m3 := m2.dropLast
  let m4 := match resp.tentative_suggestions with
    | [] => m3
    | t :: _ => m3 ++ [⟨t, "bot"⟩]
  let m5 := if resp.tentative_suggestions.length > 1 then
      m4 ++ [⟨"Additional insights:\n" ++
        String.intercalate ("\n") (resp.tentative_suggestions.drop 1), "bot"⟩]
    else m4
  let m6 := if resp.reflection_prompts.length > 0 then
      m5 ++ [⟨"Consider these aspects:\n• " ++
        String.intercalate ("\n• ") resp.reflection_prompts, "bot"⟩]
    else m5
  { cbn := st.cbn, messages := m6 }

/-- A node position in the rendered graph. -/
abbrev Pos := Rat × Rat

/-- Position of `id` in a list of positioned nodes, first match. -/
def lookupPos : List (String × Pos) → String → Option Pos
  | [], _ => none
  | (k, q) :: rest, id => if k = id then some q else lookupPos rest id

/-- `network.moveNode(id, x, y)`: set the position of every node with the
given id; nodes with other ids are untouched (an absent id moves
nothing). -/
def moveNode (view : List (String × Pos)) (id : String) (p : Pos) :
    List (String × Pos) :=
  view.map (fun e => if e.1 = id then (e.1, p) else e)

/-- The restore loop of `initNetwork` (src/NetworkGraph, lines 351-355):
`nodePositions.value.forEach((pos, id) => network.moveNode(id, pos.x, pos.y))`. -/
def restorePositions (view : List (String × Pos))
    (saved : List (String × Pos)) : List (String × Pos) :=
  saved.foldl (fun acc kv => moveNode acc kv.1 kv.2) view

/-- Node positions right after a rebuild: the layout solver places every
node of the new collection, then the saved positions are re-applied.
The solver is abstract: any assignment of initial coordinates. -/
def initNetworkPositions (nodeIds : List String) (solver : String → Pos)
    (saved : List (String × Pos)) : List (String × Pos) :=
  restorePositions (nodeIds.map (fun i => (i, solver i))) saved

/-- A handler registered with `network.once('stabilized', ...)`. -/
inductive StabAction where
  | disable : StabAction
  | disableAndFit : StabAction

/-- The rendered graph's control state: whether continuous physics is
enabled, the saved position snapshot, whether the viewport has been
fitted by the pending handler, and the queued once-handlers. -/
structure GraphView where
  physicsOn : Bool
  savedPos : List (String × Pos)
  fitted : Bool
  onceStab : List StabAction

/-- Run one stabilization handler: both disable physics, the reset-view
one additionally fits the viewport. -/
def runStabAction (v : GraphView) : StabAction → GraphView
  | .disable => { v with physicsOn := false }
  | .disableAndFit => { v with physicsOn := false, fitted := true }

/-- The simulation reports stabilization: every queued once-handler fires
in registration order and is discarded. -/
def fireStabilized (v : GraphView) : GraphView :=
  v.onceStab.foldl runStabAction { v with onceStab := [] }

/-- `initNetwork` (src/NetworkGraph, lines 344-359) as seen by the
control state: physics starts enabled and a once-handler that disables
physics on stabilization is registered; the saved snapshot is kept. -/
def initGraphView (saved : List (String × Pos)) : GraphView :=
  { physicsOn := true, savedPos := saved, fitted := false,
    onceStab := [.disable] }

/-- `resetView` (src/NetworkGraph, lines 398-422): re-enable physics and
register a once-handler that disables physics again and fits the
viewport after re-stabilization; the position snapshot is untouched. -/
def resetView (v : GraphView) : GraphView :=
  { v with physicsOn := true, onceStab := v.onceStab ++ [.disableAndFit] }

/-- Control states reachable from a fresh view by stabilization events
and manual resets. -/
inductive ReachableView : GraphView → Prop where
  | start : ∀ saved, ReachableView (initGraphView saved)
  | stab : ∀ v, ReachableView v → ReachableView (fireStabilized v)
  | reset : ∀ v, ReachableView v → ReachableView (resetView v)

/-- `categoryColors` (src/composables/useColorScale.ts, lines 4-9). -/
def categoryColors : List (String × String) :=
  [("Social", "#4C51BF"), ("Management", "#38A169"),
   ("Environmental", "#2B6CB0"), ("Economic", "#C53030")]

/-- `getColorForCategory` (src/composables/useColorScale.ts, lines
11-14): keyed lookup with a default (every stored color is a non-empty,
hence truthy, string). -/
def getColorForCategory (category : String) : String :=
  ((categoryColors.find? (fun p => p.1 = category)).map (fun p => p.2)).getD
    "#718096"

/-- `sendMessage` (src/components/ChatBox.vue, lines 33-38): when the
trimmed input is non-empty (truthy), emit the untrimmed input and clear
the box; otherwise do nothing.  Returns (emitted event, new input). -/
def sendMessage (newMessage : String) : Option String × String :=
  if jsTrim newMessage ≠ "" then (some newMessage, "") else (none, newMessage)

/-- Parsed non-object, non-null values: property reads on these yield
`undefined` instead of throwing. -/
def plainNonObj : JsVal → Bool
  | .bool _ => true
  | .num _ => true
  | .str _ => true
  | .arr _ => true
  | _ => false

/-- The agent reply of Scenario A: one line of prose followed by a JSON
object with a null updated network and one suggestion. -/
def contentA : String :=
  "Water Quality affects Seagrass Biomass.\n\x7b\"updated_cbn\": null, \"tentative_suggestions\": [\"ok\"], \"reflection_prompts\": [], \"subclaims\": []\x7d"

/-- A concrete fallback network with a recognizable node list. -/
def fallbackNet : JsVal :=
  .obj [("nodes", .arr [.str ("seed")]), ("edges", .arr []), ("cpds", .obj [])]

/-- A payload whose updated network is present and parses, but whose
edge collection is missing. -/
def missingEdgesPayload : String :=
  "\x7b\"updated_cbn\": \x7b\"nodes\": []\x7d\x7d"

/-- Claim C9: `getColorForCategory` is total and returns the four fixed
category colors, and the fixed default for every other string. -/
theorem claim_c9_colors :
    getColorForCategory ("Social") = "#4C51BF"
    ∧ getColorForCategory ("Management") = "#38A169"
    ∧ getColorForCategory ("Environmental") = "#2B6CB0"
    ∧ getColorForCategory ("Economic") = "#C53030"
    ∧ ∀ c : String, c ≠ "Social" → c ≠ "Management" → c ≠ "Environmental" →
        c ≠ "Economic" → getColorForCategory c = "#718096" := by
  refine ⟨rfl, rfl, rfl, rfl, ?_⟩
  intro c h1 h2 h3 h4
  simp [getColorForCategory, categoryColors, List.find?,
    Ne.symm h1, Ne.symm h2, Ne.symm h3, Ne.symm h4]

/-- Witness for C9: the default branch at a concrete unknown category. -/
theorem claim_c9_colors_witness : getColorForCategory ("Cultural") = "#718096" :=
  claim_c9_colors.2.2.2.2 ("Cultural") (by decide) (by decide) (by decide)
    (by decide)

/-- Claim C10: the chat input emits the untrimmed text and clears the box
exactly when the trimmed input is non-empty, and otherwise does nothing. -/
theorem claim_c10_sendMessage : ∀ s : String,
    (jsTrim s ≠ "" → sendMessage s = (some s, ""))
    ∧ (jsTrim s = "" → sendMessage s = (none, s)) := by
  intro s
  constructor
  · intro h; simp [sendMessage, h]
  · intro h; simp [sendMessage, h]

/-- Witness for C10: a concrete non-blank and a concrete blank input. -/
theorem claim_c10_sendMessage_witness :
    sendMessage (" hi") = (some (" hi"), "") ∧ sendMessage ("  ") = (none, "  ") :=
  ⟨(claim_c10_sendMessage (" hi")).1 (by decide),
   (claim_c10_sendMessage ("  ")).2 (by decide)⟩

/-- Claim C3 (code bug evidence): `handleSendMessage` never assigns the
`cbn` ref on any resolved turn, so the network returned by the pipeline
is discarded rather than replacing the current network; evaluated at a
turn whose response carries a network different from the current one. -/
theorem claim_c3_network_never_replaced :
    (∀ (st : AppState) (m : String) (resp : LLMResponse),
      (handleSendMessage st m resp).cbn = st.cbn)
    ∧ (handleSendMessage ⟨initialCBN, []⟩ ("add a node")
        ⟨⟨[], [], []⟩, [], [], []⟩).cbn = initialCBN
    ∧ initialCBN ≠ (⟨[], [], []⟩ : CBN) := by
  refine ⟨?_, rfl, ?_⟩
  · intro st m resp; rfl
  · decide

theorem moveNode_cons (a : String) (b : Pos) (rest : List (String × Pos))
    (k : String) (q : Pos) :
    moveNode ((a, b) :: rest) k q
      = (if a = k then (a, q) else (a, b)) :: moveNode rest k q := rfl

theorem lookupPos_moveNode_other (v : List (String × Pos)) (k : String)
    (q : Pos) (id : String) (h : id ≠ k) :
    lookupPos (moveNode v k q) id = lookupPos v id := by
  induction v with
  | nil => rfl
  | cons e rest ih =>
    obtain ⟨a, b⟩ := e
    rw [moveNode_cons]
    by_cases hak : a = k
    · rw [if_pos hak]
      have hai : a ≠ id := fun hai => h ((hai ▸ hak : id = k))
      simp [lookupPos, hai, ih]
    · rw [if_neg hak]
      simp [lookupPos, ih]

theorem lookupPos_moveNode_same (v : List (String × Pos)) (k : String)
    (q : Pos) :
    lookupPos (moveNode v k q) k = (lookupPos v k).map (fun _ => q) := by
  induction v with
  | nil => rfl
  | cons e rest ih =>
    obtain ⟨a, b⟩ := e
    rw [moveNode_cons]
    by_cases hak : a = k
    · rw [if_pos hak]
      simp [lookupPos, hak]
    · rw [if_neg hak]
      simp [lookupPos, hak, ih]

theorem lookupPos_restore_absent (saved : List (String × Pos)) :
    ∀ (v : List (String × Pos)) (id : String),
    id ∉ saved.map Prod.fst →
    lookupPos (restorePositions v saved) id = lookupPos v id := by
  induction saved with
  | nil => intro v id _; rfl
  | cons kv rest ih =>
    intro v id h
    obtain ⟨k, q⟩ := kv
    simp only [List.map_cons, List.mem_cons] at h
    push_neg at h
    have := ih (moveNode v k q) id h.2
    simpa [restorePositions, lookupPos_moveNode_other v k q id h.1] using this

theorem lookupPos_restore_found (saved : List (String × Pos)) :
    ∀ (v : List (String × Pos)) (id : String) (p : Pos),
    (saved.map Prod.fst).Nodup → (id, p) ∈ saved →
    lookupPos (restorePositions v saved) id = (lookupPos v id).map (fun _ => p) := by
  induction saved with
  | nil => intro v id p _ hm; cases hm
  | cons kv rest ih =>
    intro v id p hnd hm
    obtain ⟨k, q⟩ := kv
    simp only [List.map_cons, List.nodup_cons] at hnd
    rcases List.mem_cons.mp hm with heq | htail
    · injection heq with hk hq
      subst hk; subst hq
      have habs : id ∉ rest.map Prod.fst := hnd.1
      calc lookupPos (restorePositions (moveNode v id p) rest) id
          = lookupPos (moveNode v id p) id :=
            lookupPos_restore_absent rest (moveNode v id p) id habs
        _ = (lookupPos v id).map (fun _ => p) := lookupPos_moveNode_same v id p
    · have hik : id ≠ k := by
        intro hik
        exact hnd.1 (hik ▸ (List.mem_map.mpr ⟨(id, p), htail, rfl⟩))
      have := ih (moveNode v k q) id p hnd.2 htail
      simpa [restorePositions, lookupPos_moveNode_other v k q id hik] using this

theorem lookupPos_solver (nodeIds : List String) (solver : String → Pos) :
    ∀ id ∈ nodeIds,
    lookupPos (nodeIds.map (fun i => (i, solver i))) id = some (solver id) := by
  induction nodeIds with
  | nil => intro id h; cases h
  | cons a rest ih =>
    intro id h
    by_cases hai : a = id
    · subst hai; simp [lookupPos]
    · rcases List.mem_cons.mp h with heq | htail
      · exact absurd heq.symm hai
      · simpa [lookupPos, hai] using ih id htail

/-- Claim C7: after a rebuild, every node id with a saved position that is
still present keeps its saved position, and every present node without a
saved position gets the solver-assigned position. -/
theorem claim_c7_positions_restored
    (saved : List (String × Pos)) (nodeIds : List String)
    (solver : String → Pos) (id : String) (p : Pos)
    (hnd : (saved.map Prod.fst).Nodup) :
    ((id, p) ∈ saved → id ∈ nodeIds →
      lookupPos (initNetworkPositions nodeIds solver saved) id = some p)
    ∧ (∀ id2 ∈ nodeIds, id2 ∉ saved.map Prod.fst →
      lookupPos (initNetworkPositions nodeIds solver saved) id2
        = some (solver id2)) := by
  constructor
  · intro hm hid
    rw [initNetworkPositions, lookupPos_restore_found saved _ id p hnd hm,
      lookupPos_solver nodeIds solver id hid]
    rfl
  · intro id2 hid2 habs
    rw [initNetworkPositions, lookupPos_restore_absent saved _ id2 habs,
      lookupPos_solver nodeIds solver id2 hid2]

/-- Witness for C7: the view held `(10, 20)` for `n1`; after a rebuild
keeping `n1` and adding `n2`, `n1` is back at `(10, 20)` and `n2` is at
the solver's position. -/
theorem claim_c7_positions_restored_witness :
    lookupPos (initNetworkPositions ["n1", "n2"] (fun _ => ((3 : Rat), (4 : Rat)))
      [("n1", ((10 : Rat), (20 : Rat)))]) "n1" = some ((10 : Rat), (20 : Rat))
    ∧ lookupPos (initNetworkPositions ["n1", "n2"] (fun _ => ((3 : Rat), (4 : Rat)))
      [("n1", ((10 : Rat), (20 : Rat)))]) "n2" = some ((3 : Rat), (4 : Rat)) :=
  ⟨(claim_c7_positions_restored [("n1", ((10 : Rat), (20 : Rat)))] ["n1", "n2"]
      (fun _ => ((3 : Rat), (4 : Rat))) "n1" ((10 : Rat), (20 : Rat))
      (by decide)).1 (by simp) (by simp),
   (claim_c7_positions_restored [("n1", ((10 : Rat), (20 : Rat)))] ["n1", "n2"]
      (fun _ => ((3 : Rat), (4 : Rat))) "n1" ((10 : Rat), (20 : Rat))
      (by decide)).2 ("n2") (by simp) (by simp)⟩

theorem runStabAction_physicsOff (v : GraphView) (a : StabAction) :
    (runStabAction v a).physicsOn = false := by
  cases a <;> rfl

theorem runStabAction_savedPos (v : GraphView) (a : StabAction) :
    (runStabAction v a).savedPos = v.savedPos := by
  cases a <;> rfl

theorem runStabAction_onceStab (v : GraphView) (a : StabAction) :
    (runStabAction v a).onceStab = v.onceStab := by
  cases a <;> rfl

theorem foldl_runStabAction_physicsOff (l : List StabAction) :
    ∀ (v : GraphView), l ≠ [] → (l.foldl runStabAction v).physicsOn = false := by
  induction l with
  | nil => intro v h; exact absurd rfl h
  | cons a rest ih =>
    intro v _
    cases rest with
    | nil => simpa using runStabAction_physicsOff v a
    | cons b tail => exact ih (runStabAction v a) (by simp)

theorem foldl_runStabAction_savedPos (l : List StabAction) :
    ∀ (v : GraphView), (l.foldl runStabAction v).savedPos = v.savedPos := by
  induction l with
  | nil => intro v; rfl
  | cons a rest ih =>
    intro v
    simpa [runStabAction_savedPos] using ih (runStabAction v a)

theorem fireStabilized_physicsOff (v : GraphView)
    (h : v.physicsOn = false ∨ v.onceStab ≠ []) :
    (fireStabilized v).physicsOn = false := by
  rcases h with hoff | hne
  · rw [fireStabilized]
    cases hq : v.onceStab with
    | nil => simpa [hq] using hoff
    | cons a rest => exact foldl_runStabAction_physicsOff _ _ (by simp)
  · exact foldl_runStabAction_physicsOff _ _ hne

theorem reachable_phys_or_queue (v : GraphView) (h : ReachableView v) :
    v.physicsOn = false ∨ v.onceStab ≠ [] := by
  induction h with
  | start saved => right; simp [initGraphView]
  | stab w _ ihw =>
    left; exact fireStabilized_physicsOff w ihw
  | reset w _ _ =>
    right; simp [resetView]

theorem fireStabilized_fit (v : GraphView) :
    (fireStabilized (resetView v)).physicsOn = false
    ∧ (fireStabilized (resetView v)).fitted = true := by
  rw [fireStabilized]
  show (((resetView v).onceStab).foldl runStabAction _).physicsOn = false
    ∧ (((resetView v).onceStab).foldl runStabAction _).fitted = true
  rw [show (resetView v).onceStab = v.onceStab ++ [StabAction.disableAndFit]
    from rfl, List.foldl_append]
  exact ⟨rfl, rfl⟩

/-- Claim C8: in every reachable view state, a stabilization event leaves
continuous physics disabled; the manual reset re-enables physics, and the
following stabilization disables it again and fits the viewport; reset
and stabilization keep the position snapshot. -/
theorem claim_c8_stabilization_protocol (v : GraphView)
    (h : ReachableView v) :
    (fireStabilized v).physicsOn = false
    ∧ (resetView v).physicsOn = true
    ∧ (fireStabilized (resetView v)).physicsOn = false
    ∧ (fireStabilized (resetView v)).fitted = true
    ∧ (resetView v).savedPos = v.savedPos
    ∧ (fireStabilized (resetView v)).savedPos = v.savedPos := by
  refine ⟨fireStabilized_physicsOff v (reachable_phys_or_queue v h), rfl,
    (fireStabilized_fit v).1, (fireStabilized_fit v).2, rfl, ?_⟩
  rw [fireStabilized, foldl_runStabAction_savedPos]
  rfl

/-- Witness for C8 at the freshly created view. -/
theorem claim_c8_stabilization_protocol_witness :
    (fireStabilized (initGraphView [])).physicsOn = false
    ∧ (resetView (initGraphView [])).physicsOn = true
    ∧ (fireStabilized (resetView (initGraphView []))).physicsOn = false
    ∧ (fireStabilized (resetView (initGraphView []))).fitted = true
    ∧ (resetView (initGraphView [])).savedPos = (initGraphView []).savedPos
    ∧ (fireStabilized (resetView (initGraphView []))).savedPos
        = (initGraphView []).savedPos :=
  claim_c8_stabilization_protocol (initGraphView [])
    (ReachableView.start [])

theorem foldl_pushMsg {α : Type} (f : α → Option String) (l : List α) :
    ∀ acc : List String,
    l.foldl (fun a x => pushMsg a (f x)) acc = acc ++ l.filterMap f := by
  induction l with
  | nil => intro acc; simp
  | cons x xs ih =>
    intro acc
    rw [List.foldl_cons]
    show List.foldl (fun a x => pushMsg a (f x)) (pushMsg acc (f x)) xs
      = acc ++ List.filterMap f (x :: xs)
    cases hfx : f x with
    | none =>
      simp only [List.filterMap_cons, hfx]
      exact ih acc
    | some m =>
      simp only [List.filterMap_cons, hfx]
      have h2 : acc ++ [m] ++ List.filterMap f xs
          = acc ++ m :: List.filterMap f xs := by simp
      exact h2 ▸ ih (acc ++ [m])

theorem compareNetworks_eq (p c : CBN) :
    compareNetworks p c
      = c.nodes.filterMap (nodeMsg p) ++ c.edges.filterMap (edgeMsg p c) := by
  show c.edges.foldl (fun acc e => pushMsg acc (edgeMsg p c e))
    (c.nodes.foldl (fun acc n => pushMsg acc (nodeMsg p n)) []) = _
  rw [foldl_pushMsg, foldl_pushMsg]
  simp

theorem find_key_self {α : Type} (key : α → String) :
    ∀ (l : List α) (a : α), a ∈ l → (l.map key).Nodup →
    l.find? (fun x => key x = key a) = some a := by
  intro l
  induction l with
  | nil => intro a h; cases h
  | cons x xs ih =>
    intro a ha hnd
    simp only [List.map_cons, List.nodup_cons] at hnd
    rcases List.mem_cons.mp ha with rfl | htail
    · rw [List.find?_cons_of_pos _ (by simp)]
    · have hne : key x ≠ key a :=
        fun he => hnd.1 (he ▸ List.mem_map.mpr ⟨a, htail, rfl⟩)
      rw [List.find?_cons_of_neg _ (by simp [hne])]
      exact ih a htail hnd.2

/-- Claim C5: the diff engine emits an added-node entry for each
candidate node with an unknown id, an updated-node entry for each known
candidate node whose record differs structurally, every emitted entry
comes from the candidate's node pass or edge pass (so removals are never
reported), and the two-node scenario yields exactly one added-node
entry. -/
theorem claim_c5_diff_engine (p c : CBN) :
    compareNetworks p c
      = c.nodes.filterMap (nodeMsg p) ++ c.edges.filterMap (edgeMsg p c)
    ∧ (∀ nd ∈ c.nodes, p.nodes.find? (fun o => o.id = nd.id) = none →
        ("Added new node: " ++ nd.name) ∈ compareNetworks p c)
    ∧ (∀ nd ∈ c.nodes, ∀ old, p.nodes.find? (fun o => o.id = nd.id) = some old →
        old ≠ nd → ("Updated node: " ++ nd.name) ∈ compareNetworks p c)
    ∧ (∀ msg ∈ compareNetworks p c,
        (∃ nd ∈ c.nodes, nodeMsg p nd = some msg)
        ∨ (∃ e ∈ c.edges, edgeMsg p c e = some msg))
    ∧ (∀ (n1 n2 : Node) (es : List Edge) (cp : List (String × CPD)),
        n1.id ≠ n2.id → (es.map Edge.id).Nodup →
        compareNetworks ⟨[n1], es, cp⟩ ⟨[n1, n2], es, cp⟩
          = ["Added new node: " ++ n2.name]) := by
  refine ⟨compareNetworks_eq p c, ?_, ?_, ?_, ?_⟩
  · intro nd hnd hfind
    rw [compareNetworks_eq]
    exact List.mem_append_left _
      (List.mem_filterMap.mpr ⟨nd, hnd, by rw [nodeMsg, hfind]⟩)
  · intro nd hnd old hfind hne
    rw [compareNetworks_eq]
    exact List.mem_append_left _
      (List.mem_filterMap.mpr ⟨nd, hnd, by rw [nodeMsg, hfind]; simp [hne]⟩)
  · intro msg hmsg
    rw [compareNetworks_eq] at hmsg
    rcases List.mem_append.mp hmsg with hl | hr
    · left
      obtain ⟨nd, hnd, hmk⟩ := List.mem_filterMap.mp hl
      exact ⟨nd, hnd, hmk⟩
    · right
      obtain ⟨e, he, hmk⟩ := List.mem_filterMap.mp hr
      exact ⟨e, he, hmk⟩
  · intro n1 n2 es cp hne hnd
    rw [compareNetworks_eq]
    have hnode : List.filterMap (nodeMsg ⟨[n1], es, cp⟩) [n1, n2]
        = ["Added new node: " ++ n2.name] := by
      have h1 : nodeMsg ⟨[n1], es, cp⟩ n1 = none := by
        rw [nodeMsg]
        rw [show (⟨[n1], es, cp⟩ : CBN).nodes = [n1] from rfl,
          List.find?_cons_of_pos _ (by simp)]
        simp
      have h2 : nodeMsg ⟨[n1], es, cp⟩ n2
          = some ("Added new node: " ++ n2.name) := by
        rw [nodeMsg]
        rw [show (⟨[n1], es, cp⟩ : CBN).nodes = [n1] from rfl,
          List.find?_cons_of_neg _ (by simp [hne]), List.find?_nil]
      simp [List.filterMap_cons, h1, h2]
    have hedge : es.filterMap (edgeMsg ⟨[n1], es, cp⟩ ⟨[n1, n2], es, cp⟩)
        = [] := by
      refine List.filterMap_eq_nil_iff.mpr (fun e he => ?_)
      rw [edgeMsg]
      rw [show (⟨[n1], es, cp⟩ : CBN).edges = es from rfl,
        find_key_self Edge.id es e he hnd]
      simp
    rw [show (⟨[n1, n2], es, cp⟩ : CBN).nodes = [n1, n2] from rfl,
      show (⟨[n1, n2], es, cp⟩ : CBN).edges = es from rfl, hnode, hedge]
    rfl

/-- Witness for C5: the scenario with seed node 1 kept and a new node
added. -/
theorem claim_c5_diff_engine_witness :
    compareNetworks
      ⟨[mkNode ("1") "Local Support" ["Weak", "Strong"] "Social"], [], []⟩
      ⟨[mkNode ("1") "Local Support" ["Weak", "Strong"] "Social",
        mkNode ("2") "Nutrient Load" ["Low", "High"] "Environmental"], [], []⟩
      = ["Added new node: Nutrient Load"] :=
  (claim_c5_diff_engine ⟨[], [], []⟩ ⟨[], [], []⟩).2.2.2.2
    (mkNode ("1") "Local Support" ["Weak", "Strong"] "Social")
    (mkNode ("2") "Nutrient Load" ["Low", "High"] "Environmental")
    [] [] (by decide) (by decide)

/-- Claim C6: diffing a network (with the data model's unique-id
invariants) against itself yields no changes. -/
theorem claim_c6_diff_idempotent (N : CBN)
    (hn : (N.nodes.map Node.id).Nodup) (he : (N.edges.map Edge.id).Nodup) :
    compareNetworks N N = [] := by
  rw [compareNetworks_eq]
  have h1 : N.nodes.filterMap (nodeMsg N) = [] := by
    refine List.filterMap_eq_nil_iff.mpr (fun nd hnd => ?_)
    rw [nodeMsg, find_key_self Node.id N.nodes nd hnd hn]
    simp
  have h2 : N.edges.filterMap (edgeMsg N N) = [] := by
    refine List.filterMap_eq_nil_iff.mpr (fun e hme => ?_)
    rw [edgeMsg, find_key_self Edge.id N.edges e hme he]
    simp
  rw [h1, h2]
  rfl

/-- Witness for C6: the seed network diffs against itself to no changes. -/
theorem claim_c6_diff_idempotent_witness :
    compareNetworks initialCBN initialCBN = [] :=
  claim_c6_diff_idempotent initialCBN (by decide) (by decide)

theorem getFieldD_objSet_same (f : List (String × JsVal)) (k : String)
    (v : JsVal) : getFieldD (objSet f k v) k = v := by
  induction f with
  | nil => simp [objSet, getFieldD]
  | cons e rest ih =>
    obtain ⟨k0, v0⟩ := e
    by_cases h : k0 = k
    · simp [objSet, h, getFieldD]
    · simp [objSet, h, getFieldD, ih]

theorem getFieldD_objSet_other (f : List (String × JsVal)) (k k2 : String)
    (v : JsVal) (h : k2 ≠ k) :
    getFieldD (objSet f k v) k2 = getFieldD f k2 := by
  induction f with
  | nil => simp [objSet, getFieldD, Ne.symm h]
  | cons e rest ih =>
    obtain ⟨k0, v0⟩ := e
    by_cases h0 : k0 = k
    · subst h0
      simp [objSet, getFieldD, Ne.symm h]
    · simp [objSet, h0, getFieldD, ih]

theorem normNode_obj (nf : List (String × JsVal)) :
    normNode (.obj nf) = .ok (.obj (objSet (objSet nf ("states")
      (normStates (getFieldD nf ("states")))) ("probabilities")
      (if truthy (getFieldD nf ("probabilities"))
        then getFieldD nf ("probabilities") else .obj []))) := rfl

theorem normEdge_obj (ef : List (String × JsVal)) :
    normEdge (.obj ef) = .ok (.obj (objSet ef ("probability")
      (if truthy (getFieldD ef ("probability"))
        then getFieldD ef ("probability") else .null))) := rfl

/-- Claim C1 (amended): for any fallback F the pipeline is total and its
result's network is F on every malformed path; the fixed error message
and fixed retry prompt appear exactly when parsing or normalization
throws internally (unparseable text, a JSON `null` payload), while a
parsed non-object or an object missing the wrapper fields yields empty
lists instead; `processUserInput` recovers with its own fixed explanation
and two fixed reflection prompts. -/
theorem claim_c1_malformed_amended (s content : String) (F v : JsVal)
    (fields : List (String × JsVal)) :
    (jsonParse s = none →
      validateAndNormalizeLLMResponse s F = errorFallbackResult F)
    ∧ (jsonParse s = some .null →
      validateAndNormalizeLLMResponse s F = errorFallbackResult F)
    ∧ (jsonParse s = some v → plainNonObj v = true →
      validateAndNormalizeLLMResponse s F = ⟨F, .arr [], .arr [], .arr []⟩)
    ∧ (jsonParse s = some (.obj fields) →
      getFieldD fields ("updated_cbn") = .undefined →
      getFieldD fields ("tentative_suggestions") = .undefined →
      getFieldD fields ("reflection_prompts") = .undefined →
      getFieldD fields ("subclaims") = .undefined →
      validateAndNormalizeLLMResponse s F = ⟨F, .arr [], .arr [], .arr []⟩)
    ∧ (braceMatch content = none →
      processUserInput F content = puiFallbackResult F) := by
  refine ⟨?_, ?_, ?_, ?_, ?_⟩
  · intro h
    simp [validateAndNormalizeLLMResponse, vanBody, h]
  · intro h
    simp [validateAndNormalizeLLMResponse, vanBody, h, getProp]
  · intro h hp
    cases v with
    | null => simp [plainNonObj] at hp
    | undefined => simp [plainNonObj] at hp
    | obj fs => simp [plainNonObj] at hp
    | bool b =>
      simp [validateAndNormalizeLLMResponse, vanBody, h, getProp, truthy]
    | num q =>
      simp [validateAndNormalizeLLMResponse, vanBody, h, getProp, truthy]
    | str s2 =>
      simp [validateAndNormalizeLLMResponse, vanBody, h, getProp, truthy]
    | arr xs =>
      simp [validateAndNormalizeLLMResponse, vanBody, h, getProp, truthy]
  · intro h h1 h2 h3 h4
    simp [validateAndNormalizeLLMResponse, vanBody, h, getProp, h1, h2, h3,
      h4, truthy]
  · intro h
    simp [processUserInput, puiBody, h]

/-- Witness for C1: unparseable text takes the fixed-fallback path. -/
theorem claim_c1_malformed_amended_witness :
    validateAndNormalizeLLMResponse ("not json at all") (.obj [])
      = errorFallbackResult (.obj []) :=
  (claim_c1_malformed_amended ("not json at all") ("") (.obj []) .null []).1 rfl

/-- Counterexample for C1 as stated: the payload is a parsed object
missing the wrapper fields, yet the result carries empty suggestion and
reflection lists, not the fixed error message and retry prompt. -/
theorem claim_c1_malformed_counterexample :
    validateAndNormalizeLLMResponse ("\x7b\x7d") (.obj [])
      = ⟨.obj [], .arr [], .arr [], .arr []⟩
    ∧ (JsVal.arr [] : JsVal) ≠ .arr [.str invalidFormatMsg] := by
  refine ⟨rfl, ?_⟩
  simp

theorem scenarioA_eval (F : JsVal) :
    processUserInput F contentA
      = ⟨F, .arr [.str ("Water Quality affects Seagrass Biomass."),
          .str ("ok")], .arr [], .arr []⟩ := rfl

/-- Claim C2 (amended): on Scenario A's input the pipeline returns the
fallback network and empty prompt lists, but the prose before the JSON
object is prepended to the suggestions, giving
`["Water Quality affects Seagrass Biomass.", "ok"]` rather than
`["ok"]`. -/
theorem claim_c2_scenario_a_amended (F : JsVal) :
    processUserInput F contentA
      = ⟨F, .arr [.str ("Water Quality affects Seagrass Biomass."),
          .str ("ok")], .arr [], .arr []⟩ :=
  scenarioA_eval F

/-- Counterexample for C2 as stated: at a concrete fallback network the
result differs from the claimed one (the suggestions are not exactly
`["ok"]`). -/
theorem claim_c2_scenario_a_counterexample :
    processUserInput fallbackNet contentA
      ≠ ⟨fallbackNet, .arr [.str ("ok")], .arr [], .arr []⟩ := by
  rw [scenarioA_eval]
  intro h
  simp at h

/-- Claim C4 (amended): for a node object, the states field is kept when
it is a list and defaulted to the empty list otherwise, and the
probability map is kept when truthy and defaulted to the empty object
otherwise; for an edge object, the probability is kept when truthy and
defaulted to null otherwise; a payload whose updated network is falsy
yields the fallback network unchanged.  (The collection-defaulting part
of the claim is dropped: a missing node or edge collection throws inside
the try block and produces the error fallback instead.) -/
theorem claim_c4_normalization_amended (nf ef fields : List (String × JsVal))
    (xs : List JsVal) (F : JsVal) (s : String) :
    (getFieldD nf ("states") = .arr xs →
      ∃ g, normNode (.obj nf) = .ok (.obj g)
        ∧ getFieldD g ("states") = .arr xs)
    ∧ ((∀ ys, getFieldD nf ("states") ≠ .arr ys) →
      ∃ g, normNode (.obj nf) = .ok (.obj g)
        ∧ getFieldD g ("states") = .arr [])
    ∧ (truthy (getFieldD nf ("probabilities")) = false →
      ∃ g, normNode (.obj nf) = .ok (.obj g)
        ∧ getFieldD g ("probabilities") = .obj [])
    ∧ (truthy (getFieldD nf ("probabilities")) = true →
      ∃ g, normNode (.obj nf) = .ok (.obj g)
        ∧ getFieldD g ("probabilities") = getFieldD nf ("probabilities"))
    ∧ (truthy (getFieldD ef ("probability")) = false →
      ∃ g, normEdge (.obj ef) = .ok (.obj g)
        ∧ getFieldD g ("probability") = .null)
    ∧ (truthy (getFieldD ef ("probability")) = true →
      ∃ g, normEdge (.obj ef) = .ok (.obj g)
        ∧ getFieldD g ("probability") = getFieldD ef ("probability"))
    ∧ (jsonParse s = some (.obj fields) →
      truthy (getFieldD fields ("updated_cbn")) = false →
      (validateAndNormalizeLLMResponse s F).updated_cbn = F) := by
  refine ⟨?_, ?_, ?_, ?_, ?_, ?_, ?_⟩
  · intro h
    refine ⟨_, normNode_obj nf, ?_⟩
    rw [getFieldD_objSet_other _ _ _ _ (by decide), getFieldD_objSet_same, h]
    rfl
  · intro h
    refine ⟨_, normNode_obj nf, ?_⟩
    rw [getFieldD_objSet_other _ _ _ _ (by decide), getFieldD_objSet_same]
    cases hst : getFieldD nf ("states") with
    | arr ys => exact absurd hst (h ys)
    | null => rfl
    | undefined => rfl
    | bool b => rfl
    | num q => rfl
    | str s2 => rfl
    | obj fs => rfl
  · intro h
    refine ⟨_, normNode_obj nf, ?_⟩
    rw [getFieldD_objSet_same]
    simp [h]
  · intro h
    refine ⟨_, normNode_obj nf, ?_⟩
    rw [getFieldD_objSet_same]
    simp [h]
  · intro h
    refine ⟨_, normEdge_obj ef, ?_⟩
    rw [getFieldD_objSet_same]
    simp [h]
  · intro h
    refine ⟨_, normEdge_obj ef, ?_⟩
    rw [getFieldD_objSet_same]
    simp [h]
  · intro h hf
    simp [validateAndNormalizeLLMResponse, vanBody, h, getProp, hf]

/-- Witness for C4: a payload with no `updated_cbn` leaves the fallback
network in place. -/
theorem claim_c4_normalization_amended_witness :
    (validateAndNormalizeLLMResponse ("\x7b\x7d") fallbackNet).updated_cbn
      = fallbackNet :=
  (claim_c4_normalization_amended [] [] [] [] fallbackNet
    ("\x7b\x7d")).2.2.2.2.2.2 rfl rfl

/-- Counterexample for C4 as stated: a parsed payload with a present
updated network but no edge collection takes the error-fallback path:
the result is the fixed fallback, whose network is the supplied fallback
and not the payload's network with a defaulted edge list. -/
theorem claim_c4_normalization_counterexample :
    validateAndNormalizeLLMResponse missingEdgesPayload fallbackNet
      = errorFallbackResult fallbackNet
    ∧ (validateAndNormalizeLLMResponse missingEdgesPayload
        fallbackNet).updated_cbn
      ≠ .obj [("nodes", JsVal.arr []), ("edges", JsVal.arr [])] := by
  refine ⟨rfl, ?_⟩
  show fallbackNet ≠ JsVal.obj [("nodes", JsVal.arr []), ("edges", JsVal.arr [])]
  simp [fallbackNet]
